import Mathlib

/-!
Shallow embedding of the numerical core of the Sentinel-2 NDVI vegetation
analysis backend (`src/Backend/main.py`): the `compute_ndvi` transform and the
`calculate_statistics` classifier.

Modelling conventions:
* A float32 cell is modelled by `FVal`: either a finite rational, `nan`, or a
  signed infinity.  Finite arithmetic is exact rational arithmetic; the IEEE
  special-value propagation rules (NaN absorbs, `inf - inf = nan`, comparisons
  with NaN are false) are modelled explicitly, since the code's epsilon mask
  and finite-value mask depend on them.
* A 2-D numpy array is a `Grid`: a shape `(rows, cols)` plus the flat list of
  cells in row-major order.
* Python's `round(x, n)` on floats rounds half to even; `roundHalfEven` models
  it exactly on rationals.
* `np.std` returns a square root, which leaves ℚ; the `Stats` record stores
  the variance (the square of `np.std`) instead.  No claim refers to its value.
-/

/-- One cell of a float32 raster: a finite rational, NaN, or a signed
infinity. -/
inductive FVal where
  | fin (x : ℚ)
  | pinf
  | ninf
  | nan
deriving DecidableEq, Repr

namespace FVal

/-- `np.isfinite` on one cell. -/
def isFinite : FVal → Bool
  | fin _ => true
  | _ => false

/-- The finite value carried by a cell, if any; `ndvi[np.isfinite(ndvi)]` is
modelled as `filterMap finVal`. -/
def finVal : FVal → Option ℚ
  | fin x => some x
  | _ => none

/-- IEEE negation. -/
def neg : FVal → FVal
  | fin x => fin (-x)
  | pinf => ninf
  | ninf => pinf
  | nan => nan

/-- IEEE addition: NaN absorbs, opposite infinities give NaN. -/
def add : FVal → FVal → FVal
  | nan, _ => nan
  | _, nan => nan
  | pinf, ninf => nan
  | ninf, pinf => nan
  | pinf, _ => pinf
  | _, pinf => pinf
  | ninf, _ => ninf
  | _, ninf => ninf
  | fin x, fin y => fin (x + y)

/-- IEEE subtraction, as addition of the negation. -/
def sub (a b : FVal) : FVal := add a (neg b)

/-- IEEE division (signed zero is not modelled; the transform only divides
where the epsilon mask holds, which excludes zero denominators). -/
def div : FVal → FVal → FVal
  | nan, _ => nan
  | _, nan => nan
  | pinf, pinf => nan
  | pinf, ninf => nan
  | ninf, pinf => nan
  | ninf, ninf => nan
  | pinf, fin y => if y < 0 then ninf else pinf
  | ninf, fin y => if y < 0 then pinf else ninf
  | fin _, pinf => fin 0
  | fin _, ninf => fin 0
  | fin x, fin y =>
    if y = 0 then (if x = 0 then nan else if x < 0 then ninf else pinf)
    else fin (x / y)

/-- `np.abs` on a rational (spelled with `if` so that it evaluates by kernel
reduction). -/
def ratAbs (x : ℚ) : ℚ := if x < 0 then -x else x

/-- `np.abs v > e` on one cell: false for NaN (IEEE comparisons with NaN are
false), true for either infinity. -/
def absGtEps (v : FVal) (e : ℚ) : Bool :=
  match v with
  | fin x => decide (e < ratAbs x)
  | pinf => true
  | ninf => true
  | nan => false

/-- `np.clip(v, -1.0, 1.0)` on one cell: NaN passes through, infinities clamp
to the bounds, finite values clamp into `[-1, 1]`. -/
def clip : FVal → FVal
  | fin x => fin (if x < -1 then -1 else if 1 < x then 1 else x)
  | pinf => fin 1
  | ninf => fin (-1)
  | nan => nan

end FVal

/-- A 2-D numpy array: its shape and its cells in row-major order. -/
structure Grid where
  rows : ℕ
  cols : ℕ
  data : List FVal
deriving DecidableEq, Repr

/-- `arr.shape` of a 2-D array. -/
def Grid.shape (g : Grid) : ℕ × ℕ := (g.rows, g.cols)

/-- The error conditions the core raises (both surface as `ValueError`):
`shapeMismatch` carries both shapes, as in
`"Band dimension mismatch: RED {red.shape} vs NIR {nir.shape}"`;
`noValidPixels` is `"No valid NDVI pixels found after masking"`. -/
inductive NdviError where
  | shapeMismatch (redShape nirShape : ℕ × ℕ)
  | noValidPixels
deriving DecidableEq, Repr

/-- The epsilon of the denominator mask, `1e-6`. -/
def eps : ℚ := 1 / 1000000

/-- One cell of the NDVI transform: `num = nir - red`, `den = nir + red`;
cells start at `0.0` (`np.zeros_like`), the quotient is written only where
`np.abs(den) > 1e-6`, and the whole array is then clipped to `[-1, 1]`. -/
def ndviPixel (r n : FVal) : FVal :=
  let num := FVal.sub n r
  let den := FVal.add n r
  FVal.clip (if FVal.absGtEps den eps then FVal.div num den else FVal.fin 0)

/-- `compute_ndvi(red_band, nir_band)`: raises on shape mismatch, otherwise
applies `ndviPixel` cell-wise. -/
def compute_ndvi (red nir : Grid) : Except NdviError Grid :=
  if red.shape ≠ nir.shape then
    .error (.shapeMismatch red.shape nir.shape)
  else
    .ok ⟨red.rows, red.cols, List.zipWith ndviPixel red.data nir.data⟩

/-- `valid_ndvi > 0.6`. -/
def isHealthy (x : ℚ) : Bool := decide (3 / 5 < x)

/-- `(valid_ndvi > 0.4) & (valid_ndvi <= 0.6)`. -/
def isModerate (x : ℚ) : Bool := decide (2 / 5 < x) && decide (x ≤ 3 / 5)

/-- `(valid_ndvi > 0.2) & (valid_ndvi <= 0.4)`. -/
def isStressed (x : ℚ) : Bool := decide (1 / 5 < x) && decide (x ≤ 2 / 5)

/-- `valid_ndvi <= 0.2`. -/
def isBare (x : ℚ) : Bool := decide (x ≤ 1 / 5)

/-- `valid_ndvi = ndvi[np.isfinite(ndvi)]`, as the list of finite cell
values. -/
def finiteVals (g : Grid) : List ℚ := g.data.filterMap FVal.finVal

/-- `healthy = np.sum(valid_ndvi > 0.6)`. -/
def healthyCount (vals : List ℚ) : ℕ := vals.countP isHealthy

/-- `moderate = np.sum((valid_ndvi > 0.4) & (valid_ndvi <= 0.6))`. -/
def moderateCount (vals : List ℚ) : ℕ := vals.countP isModerate

/-- `stressed = np.sum((valid_ndvi > 0.2) & (valid_ndvi <= 0.4))`. -/
def stressedCount (vals : List ℚ) : ℕ := vals.countP isStressed

/-- `bare = np.sum(valid_ndvi <= 0.2)`. -/
def bareCount (vals : List ℚ) : ℕ := vals.countP isBare

/-- Python's `round(x, ndigits=0)` on a rational: round to the nearest
integer, ties to even. -/
def roundHalfEven (x : ℚ) : ℤ :=
  if x - ⌊x⌋ < 1 / 2 then ⌊x⌋
  else if 1 / 2 < x - ⌊x⌋ then ⌊x⌋ + 1
  else if ⌊x⌋ % 2 = 0 then ⌊x⌋ else ⌊x⌋ + 1

/-- Python's `round(x, 2)`. -/
def round2 (x : ℚ) : ℚ := (roundHalfEven (x * 100) : ℚ) / 100

/-- Python's `round(x, 3)`. -/
def round3 (x : ℚ) : ℚ := (roundHalfEven (x * 1000) : ℚ) / 1000

/-- The statistics record built by `calculate_statistics`.  `variance_ndvi`
is the square of the reported `std_ndvi` (see module docstring). -/
structure Stats where
  healthy_vegetation_percent : ℚ
  moderate_vegetation_percent : ℚ
  stressed_vegetation_percent : ℚ
  bare_land_percent : ℚ
  mean_ndvi : ℚ
  variance_ndvi : ℚ
  min_ndvi : ℚ
  max_ndvi : ℚ
  total_valid_pixels : ℕ
deriving DecidableEq, Repr

/-- `calculate_statistics(ndvi)`: mask to finite values, raise if none
remain, otherwise report the four class percentages (rounded to 2 decimals)
and summary statistics (rounded to 3 decimals). -/
def calculate_statistics (ndvi : Grid) : Except NdviError Stats :=
  let valid := finiteVals ndvi
  if valid.length = 0 then
    .error .noValidPixels
  else
    let total : ℕ := valid.length
    .ok
      { healthy_vegetation_percent :=
          round2 ((healthyCount valid : ℚ) / (total : ℚ) * 100)
        moderate_vegetation_percent :=
          round2 ((moderateCount valid : ℚ) / (total : ℚ) * 100)
        stressed_vegetation_percent :=
          round2 ((stressedCount valid : ℚ) / (total : ℚ) * 100)
        bare_land_percent :=
          round2 ((bareCount valid : ℚ) / (total : ℚ) * 100)
        mean_ndvi := round3 (valid.sum / (total : ℚ))
        variance_ndvi :=
          ((valid.map fun x => (x - valid.sum / (total : ℚ)) ^ 2).sum) /
            (total : ℚ)
        min_ndvi := round3 ((valid.min?).getD 0)
        max_ndvi := round3 ((valid.max?).getD 0)
        total_valid_pixels := total }

/-- The sum of the four reported class percentages. -/
def pctSum (st : Stats) : ℚ :=
  st.healthy_vegetation_percent + st.moderate_vegetation_percent +
    st.stressed_vegetation_percent + st.bare_land_percent

example : ndviPixel (.fin (1 / 10)) (.fin (1 / 2)) = .fin (2 / 3) := by
  with_unfolding_all rfl

example : ndviPixel (.fin 0) (.fin 0) = .fin 0 := by with_unfolding_all rfl

example : calculate_statistics ⟨1, 1, [.fin (1 / 5)]⟩ =
    .ok ⟨0, 0, 0, 100, 1 / 5, 0, 1 / 5, 1 / 5, 1⟩ := by with_unfolding_all rfl

/-- A 4×8 grid with one healthy, one moderate, one stressed and 29 bare
pixels: the class percentages are 3.125 (three times) and 90.625, all four of
which round half-to-even downwards, so the reported percentages sum to
99.98. -/
def gC2 : Grid :=
  ⟨4, 8, [.fin (7 / 10), .fin (1 / 2), .fin (3 / 10)] ++
    List.replicate 29 (.fin 0)⟩

/-! ### Helper lemmas -/

theorem FVal.ratAbs_eq_abs (x : ℚ) : FVal.ratAbs x = |x| := by
  unfold FVal.ratAbs
  rcases lt_or_le x 0 with h | h
  · rw [if_pos h, abs_of_neg h]
  · rw [if_neg (not_lt.mpr h), abs_of_nonneg h]

theorem FVal.isFinite_exists {v : FVal} (h : v.isFinite = true) :
    ∃ x : ℚ, v = .fin x := by
  cases v <;> simp [FVal.isFinite] at h ⊢

theorem FVal.add_nan_left (v : FVal) : FVal.add .nan v = .nan := by
  cases v <;> rfl

theorem FVal.add_nan_right (v : FVal) : FVal.add v .nan = .nan := by
  cases v <;> rfl

theorem FVal.add_fin_fin (a b : ℚ) : FVal.add (.fin a) (.fin b) = .fin (a + b) :=
  rfl

theorem FVal.sub_fin_fin (a b : ℚ) :
    FVal.sub (.fin a) (.fin b) = .fin (a - b) := by
  simp [FVal.sub, FVal.neg, FVal.add, sub_eq_add_neg]

theorem FVal.div_fin_fin {x d : ℚ} (hd : d ≠ 0) :
    FVal.div (.fin x) (.fin d) = .fin (x / d) := by
  simp [FVal.div, hd]

theorem FVal.absGtEps_fin_ne_zero {d : ℚ}
    (h : FVal.absGtEps (.fin d) eps = true) : d ≠ 0 := by
  intro h0
  subst h0
  have h2 : eps < FVal.ratAbs 0 := by simpa [FVal.absGtEps] using h
  have h3 : FVal.ratAbs 0 = 0 := by norm_num [FVal.ratAbs]
  rw [h3] at h2
  norm_num [eps] at h2

theorem FVal.clip_fin_bounds (v : ℚ) :
    ∃ q, FVal.clip (.fin v) = .fin q ∧ -1 ≤ q ∧ q ≤ 1 := by
  simp only [FVal.clip]
  refine ⟨_, rfl, ?_, ?_⟩ <;> split_ifs <;> linarith

theorem mem_zipWith {α β γ : Type} {f : α → β → γ} {xs : List α} {ys : List β}
    {v : γ} (h : v ∈ List.zipWith f xs ys) :
    ∃ a b, a ∈ xs ∧ b ∈ ys ∧ v = f a b := by
  induction xs generalizing ys with
  | nil => simp [List.zipWith] at h
  | cons x xs ih =>
    cases ys with
    | nil => simp [List.zipWith] at h
    | cons y ys =>
      rw [List.zipWith_cons_cons] at h
      rcases List.mem_cons.mp h with h | h
      · exact ⟨x, y, List.mem_cons_self _ _, List.mem_cons_self _ _, h⟩
      · obtain ⟨a, b, ha, hb, hv⟩ := ih h
        exact ⟨a, b, List.mem_cons_of_mem _ ha, List.mem_cons_of_mem _ hb, hv⟩

/-- Unfolding of a successful `compute_ndvi` run. -/
theorem compute_ndvi_ok {red nir : Grid} {g : Grid}
    (hok : compute_ndvi red nir = .ok g) :
    red.shape = nir.shape ∧ g.rows = red.rows ∧ g.cols = red.cols ∧
      g.data = List.zipWith ndviPixel red.data nir.data := by
  unfold compute_ndvi at hok
  split at hok
  · cases hok
  · rename_i h
    cases hok
    exact ⟨not_not.mp h, rfl, rfl, rfl⟩

/-- Bounds for one NDVI cell on finite inputs: the output is finite and lies
in `[-1, 1]`. -/
theorem ndviPixel_fin_bounds (a b : ℚ) :
    ∃ q, ndviPixel (.fin a) (.fin b) = .fin q ∧ -1 ≤ q ∧ q ≤ 1 := by
  simp only [ndviPixel, FVal.add_fin_fin, FVal.sub_fin_fin]
  by_cases hm : FVal.absGtEps (.fin (b + a)) eps = true
  · rw [if_pos hm, FVal.div_fin_fin (FVal.absGtEps_fin_ne_zero hm)]
    exact FVal.clip_fin_bounds _
  · rw [if_neg hm]
    exact FVal.clip_fin_bounds 0

/-! ### Claims -/

/-- C1: for every pair of equal-shaped input grids whose values are all
finite, every value of the grid returned by `compute_ndvi` lies in the closed
interval `[-1, 1]` (the result is clamped element-wise after the division). -/
theorem claim_C1_range_invariant :
    ∀ red nir g : Grid, (∀ v ∈ red.data, v.isFinite = true) →
      (∀ v ∈ nir.data, v.isFinite = true) →
      compute_ndvi red nir = .ok g →
      ∀ v ∈ g.data, ∃ q : ℚ, v = .fin q ∧ -1 ≤ q ∧ q ≤ 1 := by
  intro red nir g hred hnir hok v hv
  obtain ⟨-, -, -, hdata⟩ := compute_ndvi_ok hok
  rw [hdata] at hv
  obtain ⟨a, b, ha, hb, rfl⟩ := mem_zipWith hv
  obtain ⟨x, rfl⟩ := FVal.isFinite_exists (hred a ha)
  obtain ⟨y, rfl⟩ := FVal.isFinite_exists (hnir b hb)
  obtain ⟨q, hq, h1, h2⟩ := ndviPixel_fin_bounds x y
  exact ⟨q, hq, h1, h2⟩

theorem claim_C1_witness :
    ∃ q : ℚ, FVal.fin (-1 / 3) = .fin q ∧ -1 ≤ q ∧ q ≤ 1 :=
  claim_C1_range_invariant ⟨1, 2, [.fin 2, .fin 0]⟩ ⟨1, 2, [.fin 1, .fin 0]⟩
    ⟨1, 2, [.fin (-1 / 3), .fin 0]⟩ (by decide) (by decide)
    (by with_unfolding_all rfl) (.fin (-1 / 3)) (List.mem_cons_self _ _)

/-- C4: for unequal shapes `compute_ndvi` fails with a shape-mismatch error
carrying both shapes; for equal shapes that error is not raised, and the
output has exactly the input shape (no broadcasting or truncation). -/
theorem claim_C4_shape_contract :
    ∀ red nir : Grid,
      (red.shape ≠ nir.shape →
        compute_ndvi red nir = .error (.shapeMismatch red.shape nir.shape)) ∧
      (red.shape = nir.shape →
        ∃ g, compute_ndvi red nir = .ok g ∧ g.shape = red.shape) := by
  intro red nir
  constructor
  · intro hne
    unfold compute_ndvi
    rw [if_pos hne]
  · intro heq
    refine ⟨⟨red.rows, red.cols, List.zipWith ndviPixel red.data nir.data⟩,
      ?_, rfl⟩
    unfold compute_ndvi
    rw [if_neg (not_not.mpr heq)]

theorem claim_C4_witness :
    compute_ndvi ⟨1, 2, [.fin 0, .fin 0]⟩ ⟨2, 1, [.fin 0, .fin 0]⟩ =
      .error (.shapeMismatch (1, 2) (2, 1)) :=
  (claim_C4_shape_contract ⟨1, 2, [.fin 0, .fin 0]⟩ ⟨2, 1, [.fin 0, .fin 0]⟩).1
    (by decide)

/-- Clipping zero gives zero. -/
theorem FVal.clip_zero : FVal.clip (.fin 0) = .fin 0 := by
  simp only [FVal.clip]
  norm_num

/-- A cell of a successful `compute_ndvi` run, looked up through the inputs. -/
theorem compute_ndvi_cell {red nir g : Grid} {i : ℕ} {r n : FVal}
    (hok : compute_ndvi red nir = .ok g)
    (hr : red.data[i]? = some r) (hn : nir.data[i]? = some n) :
    g.data[i]? = some (ndviPixel r n) := by
  obtain ⟨-, -, -, hdata⟩ := compute_ndvi_ok hok
  rw [hdata, List.getElem?_zipWith, hr, hn]

/-- C3: at every pixel whose denominator `nir + red` is finite with absolute
value at most `eps = 1e-6` (in particular `red = 0`, `nir = 0`), the output of
`compute_ndvi` is exactly `0.0`, not NaN or Inf: the division only happens
where `|nir + red| > 1e-6`. -/
theorem claim_C3_zero_denominator :
    ∀ (red nir g : Grid) (i : ℕ) (r n : FVal) (d : ℚ),
      compute_ndvi red nir = .ok g →
      red.data[i]? = some r → nir.data[i]? = some n →
      FVal.add n r = .fin d → |d| ≤ eps →
      g.data[i]? = some (.fin 0) := by
  intro red nir g i r n d hok hr hn hden hsmall
  rw [compute_ndvi_cell hok hr hn]
  simp only [ndviPixel, hden]
  have hmask : FVal.absGtEps (.fin d) eps = false := by
    simp only [FVal.absGtEps, FVal.ratAbs_eq_abs, decide_eq_false_iff_not,
      not_lt]
    exact hsmall
  rw [hmask, if_neg (by simp), FVal.clip_zero]

theorem claim_C3_witness :
    (⟨1, 1, [FVal.fin 0]⟩ : Grid).data[0]? = some (.fin 0) :=
  claim_C3_zero_denominator ⟨1, 1, [.fin 0]⟩ ⟨1, 1, [.fin 0]⟩
    ⟨1, 1, [.fin 0]⟩ 0 (.fin 0) (.fin 0) 0 (by with_unfolding_all rfl) rfl rfl
    (by with_unfolding_all rfl) (by norm_num [eps])

/-- C9: `compute_ndvi` and `calculate_statistics` are modelled as pure
functions, so two invocations on identical inputs yield identical outputs;
the source functions read no global state. -/
theorem claim_C9_determinism :
    ∀ red₁ nir₁ red₂ nir₂ g₁ g₂ : Grid, red₁ = red₂ → nir₁ = nir₂ → g₁ = g₂ →
      compute_ndvi red₁ nir₁ = compute_ndvi red₂ nir₂ ∧
      calculate_statistics g₁ = calculate_statistics g₂ := by
  intro red₁ nir₁ red₂ nir₂ g₁ g₂ h₁ h₂ h₃
  subst h₁
  subst h₂
  subst h₃
  exact ⟨rfl, rfl⟩

theorem claim_C9_witness :
    compute_ndvi ⟨1, 1, [.fin 0]⟩ ⟨1, 1, [.fin 0]⟩ =
        compute_ndvi ⟨1, 1, [.fin 0]⟩ ⟨1, 1, [.fin 0]⟩ ∧
      calculate_statistics ⟨1, 1, [.fin 0]⟩ =
        calculate_statistics ⟨1, 1, [.fin 0]⟩ :=
  claim_C9_determinism ⟨1, 1, [.fin 0]⟩ ⟨1, 1, [.fin 0]⟩ ⟨1, 1, [.fin 0]⟩
    ⟨1, 1, [.fin 0]⟩ ⟨1, 1, [.fin 0]⟩ ⟨1, 1, [.fin 0]⟩ rfl rfl rfl

/-- C10: at every pixel where `red` or `nir` is NaN the denominator is NaN,
the mask `|den| > 1e-6` is false (NaN comparisons are false), and
`compute_ndvi` outputs `0.0` there; that value is finite and satisfies the
classifier's `bare_land` predicate, so such pixels are counted as
`bare_land` rather than excluded from `total_valid_pixels`. -/
theorem claim_C10_nan_pixels_become_bare :
    ∀ (red nir g : Grid) (i : ℕ) (r n : FVal),
      compute_ndvi red nir = .ok g →
      red.data[i]? = some r → nir.data[i]? = some n →
      (r = .nan ∨ n = .nan) →
      g.data[i]? = some (.fin 0) ∧ (FVal.fin 0).isFinite = true ∧
        isBare 0 = true := by
  intro red nir g i r n hok hr hn hnan
  have hden : FVal.add n r = .nan := by
    rcases hnan with h | h <;> subst h
    · exact FVal.add_nan_right n
    · exact FVal.add_nan_left r
  refine ⟨?_, rfl, by norm_num [isBare]⟩
  rw [compute_ndvi_cell hok hr hn]
  simp only [ndviPixel, hden]
  rw [show FVal.absGtEps .nan eps = false from rfl, if_neg (by simp),
    FVal.clip_zero]

theorem claim_C10_witness :
    (⟨1, 1, [FVal.fin 0]⟩ : Grid).data[0]? = some (.fin 0) ∧
      (FVal.fin 0).isFinite = true ∧ isBare 0 = true :=
  claim_C10_nan_pixels_become_bare ⟨1, 1, [.nan]⟩ ⟨1, 1, [.fin (1 / 2)]⟩
    ⟨1, 1, [.fin 0]⟩ 0 .nan (.fin (1 / 2)) (by with_unfolding_all rfl) rfl rfl
    (Or.inl rfl)

/-- The finite-pixel list is empty exactly when no cell is finite. -/
theorem finiteVals_eq_nil_iff (g : Grid) :
    (finiteVals g).length = 0 ↔ ∀ v ∈ g.data, v.isFinite = false := by
  rw [List.length_eq_zero]
  unfold finiteVals
  rw [List.filterMap_eq_nil_iff]
  constructor
  · intro h v hv
    have hx := h v hv
    cases v <;> simp [FVal.finVal, FVal.isFinite] at hx ⊢
  · intro h v hv
    have hx := h v hv
    cases v <;> simp [FVal.finVal, FVal.isFinite] at hx ⊢

/-- C6: `calculate_statistics` raises the no-valid-pixels error exactly when
the grid has zero finite values, and that is the only error it raises. -/
theorem claim_C6_no_valid_pixels :
    ∀ g : Grid,
      (calculate_statistics g = .error .noValidPixels ↔
        ∀ v ∈ g.data, v.isFinite = false) ∧
      (∀ e, calculate_statistics g = .error e → e = .noValidPixels) := by
  intro g
  constructor
  · constructor
    · intro herr
      rw [← finiteVals_eq_nil_iff]
      simp only [calculate_statistics] at herr
      split at herr
      · assumption
      · cases herr
    · intro hall
      simp only [calculate_statistics]
      rw [if_pos ((finiteVals_eq_nil_iff g).mpr hall)]
  · intro e herr
    simp only [calculate_statistics] at herr
    split at herr
    · injection herr with h2
      exact h2.symm
    · cases herr

theorem claim_C6_witness :
    calculate_statistics ⟨1, 2, [.nan, .nan]⟩ = .error .noValidPixels :=
  ((claim_C6_no_valid_pixels ⟨1, 2, [.nan, .nan]⟩).1).mpr (by decide)

/-- C5: the band boundaries belong to the lower band: NDVI exactly `0.2` is
`bare_land`, exactly `0.4` is `stressed`, exactly `0.6` is `moderate`, both
for the classifier predicates and for whole single-pixel
`calculate_statistics` runs. -/
theorem claim_C5_boundary_inclusivity :
    isBare (1 / 5) = true ∧ isStressed (1 / 5) = false ∧
      isStressed (2 / 5) = true ∧ isModerate (2 / 5) = false ∧
      isModerate (3 / 5) = true ∧ isHealthy (3 / 5) = false ∧
      (calculate_statistics ⟨1, 1, [.fin (1 / 5)]⟩).map
        Stats.bare_land_percent = .ok 100 ∧
      (calculate_statistics ⟨1, 1, [.fin (2 / 5)]⟩).map
        Stats.stressed_vegetation_percent = .ok 100 ∧
      (calculate_statistics ⟨1, 1, [.fin (3 / 5)]⟩).map
        Stats.moderate_vegetation_percent = .ok 100 := by
  refine ⟨?_, ?_, ?_, ?_, ?_, ?_, ?_, ?_, ?_⟩ <;> with_unfolding_all rfl

/-- C7 counterexample: for `red = 0.1`, `nir = 0.5` the NDVI value is `2/3`,
whose 3-decimal rounding is `0.667`, not `0.6667` as the claim states. -/
theorem claim_C7_counterexample :
    compute_ndvi ⟨1, 1, [.fin (1 / 10)]⟩ ⟨1, 1, [.fin (1 / 2)]⟩ =
        .ok ⟨1, 1, [.fin (2 / 3)]⟩ ∧
      round3 (2 / 3) = 667 / 1000 ∧ (667 / 1000 : ℚ) ≠ 6667 / 10000 := by
  refine ⟨by with_unfolding_all rfl, by with_unfolding_all rfl, by norm_num⟩

/-- C7 (amended: the value rounds to `0.667` at 3 decimals, `0.6667` being
its 4-decimal rounding): for `red = 0.1`, `nir = 0.5`, `compute_ndvi` yields
`(0.5 - 0.1)/(0.5 + 0.1) = 2/3 ≈ 0.667`, and that value is classified as
healthy (`> 0.6`) by `calculate_statistics`. -/
theorem claim_C7_known_value :
    compute_ndvi ⟨1, 1, [.fin (1 / 10)]⟩ ⟨1, 1, [.fin (1 / 2)]⟩ =
        .ok ⟨1, 1, [.fin (2 / 3)]⟩ ∧
      round3 (2 / 3) = 667 / 1000 ∧ isHealthy (2 / 3) = true ∧
      (calculate_statistics ⟨1, 1, [.fin (2 / 3)]⟩).map
        Stats.healthy_vegetation_percent = .ok 100 := by
  refine ⟨by with_unfolding_all rfl, by with_unfolding_all rfl,
    by with_unfolding_all rfl, by with_unfolding_all rfl⟩

/-- The nearest-integer rounding is at distance at most `1/2`. -/
theorem roundHalfEven_close (x : ℚ) : |(roundHalfEven x : ℚ) - x| ≤ 1 / 2 := by
  have h1 : ((⌊x⌋ : ℤ) : ℚ) ≤ x := Int.floor_le x
  have h2 : x < ((⌊x⌋ : ℤ) : ℚ) + 1 := Int.lt_floor_add_one x
  unfold roundHalfEven
  split_ifs with ha hb hc <;> rw [abs_le] <;> constructor <;> push_cast <;>
    linarith

/-- Rounding to two decimals moves a value by at most `1/200`. -/
theorem round2_close (x : ℚ) : |round2 x - x| ≤ 1 / 200 := by
  have h := roundHalfEven_close (x * 100)
  unfold round2
  rw [abs_le] at h ⊢
  constructor <;> linarith [h.1, h.2]

/-- Every value satisfies exactly one of the four classifier predicates. -/
theorem band_partition (x : ℚ) :
    ((if isHealthy x then 1 else 0) + (if isModerate x then 1 else 0) +
      (if isStressed x then 1 else 0) + (if isBare x then 1 else 0) : ℕ)
      = 1 := by
  have e1 : (if isHealthy x then (1 : ℕ) else 0) =
      if 3 / 5 < x then 1 else 0 := by
    simp [isHealthy]
  have e2 : (if isModerate x then (1 : ℕ) else 0) =
      if 2 / 5 < x ∧ x ≤ 3 / 5 then 1 else 0 := by
    simp [isModerate]
  have e3 : (if isStressed x then (1 : ℕ) else 0) =
      if 1 / 5 < x ∧ x ≤ 2 / 5 then 1 else 0 := by
    simp [isStressed]
  have e4 : (if isBare x then (1 : ℕ) else 0) =
      if x ≤ 1 / 5 then 1 else 0 := by
    simp [isBare]
  rw [e1, e2, e3, e4]
  rcases le_or_lt x (1 / 5) with h1 | h1
  · rw [if_neg (by intro h; linarith), if_neg (by intro h; linarith [h.1]),
      if_neg (by intro h; linarith [h.1]), if_pos h1]
  · rcases le_or_lt x (2 / 5) with h2 | h2
    · rw [if_neg (by intro h; linarith), if_neg (by intro h; linarith [h.1]),
        if_pos ⟨h1, h2⟩, if_neg (by intro h; linarith)]
    · rcases le_or_lt x (3 / 5) with h3 | h3
      · rw [if_neg (by intro h; linarith), if_pos ⟨h2, h3⟩,
          if_neg (by intro h; linarith [h.2]),
          if_neg (by intro h; linarith)]
      · rw [if_pos h3, if_neg (by intro h; linarith [h.2]),
          if_neg (by intro h; linarith [h.2]),
          if_neg (by intro h; linarith)]

/-- The four class counts partition the finite-pixel list. -/
theorem counts_partition (vals : List ℚ) :
    healthyCount vals + moderateCount vals + stressedCount vals +
      bareCount vals = vals.length := by
  unfold healthyCount moderateCount stressedCount bareCount
  induction vals with
  | nil => rfl
  | cons a l ih =>
    simp only [List.countP_cons, List.length_cons]
    have hx := band_partition a
    omega

/-- Unfolding of a successful `calculate_statistics` run. -/
theorem calculate_statistics_ok {g : Grid} {st : Stats}
    (hok : calculate_statistics g = .ok st) :
    (finiteVals g).length ≠ 0 ∧
      st = { healthy_vegetation_percent :=
               round2 ((healthyCount (finiteVals g) : ℚ) /
                 ((finiteVals g).length : ℚ) * 100)
             moderate_vegetation_percent :=
               round2 ((moderateCount (finiteVals g) : ℚ) /
                 ((finiteVals g).length : ℚ) * 100)
             stressed_vegetation_percent :=
               round2 ((stressedCount (finiteVals g) : ℚ) /
                 ((finiteVals g).length : ℚ) * 100)
             bare_land_percent :=
               round2 ((bareCount (finiteVals g) : ℚ) /
                 ((finiteVals g).length : ℚ) * 100)
             mean_ndvi :=
               round3 ((finiteVals g).sum / ((finiteVals g).length : ℚ))
             variance_ndvi :=
               (((finiteVals g).map fun x =>
                 (x - (finiteVals g).sum / ((finiteVals g).length : ℚ)) ^
                   2).sum) / ((finiteVals g).length : ℚ)
             min_ndvi := round3 (((finiteVals g).min?).getD 0)
             max_ndvi := round3 (((finiteVals g).max?).getD 0)
             total_valid_pixels := (finiteVals g).length } := by
  simp only [calculate_statistics] at hok
  split at hok
  · cases hok
  · rename_i h
    cases hok
    exact ⟨h, rfl⟩

/-- The four exact (unrounded) percentages sum to 100. -/
theorem pct_sum_100 {hc mc sc bc N : ℕ} (hN : N ≠ 0)
    (hsum : hc + mc + sc + bc = N) :
    (hc : ℚ) / (N : ℚ) * 100 + (mc : ℚ) / (N : ℚ) * 100 +
      (sc : ℚ) / (N : ℚ) * 100 + (bc : ℚ) / (N : ℚ) * 100 = 100 := by
  have hNQ : (N : ℚ) ≠ 0 := Nat.cast_ne_zero.mpr hN
  have hq : (hc : ℚ) + (mc : ℚ) + (sc : ℚ) + (bc : ℚ) = (N : ℚ) := by
    exact_mod_cast hsum
  field_simp
  linear_combination 100 * hq

theorem round2_hundred : round2 100 = 100 := by with_unfolding_all rfl

theorem round2_zero : round2 0 = 0 := by with_unfolding_all rfl

/-- C2 (amended: the rounded percentages sum to 100.0 within ±0.02 — with
round-half-to-even at two decimals each of the four percentages can move by
up to 0.005, so the sum can deviate by up to 0.02, and 0.02 is attained):
the four class counts are mutually exclusive and exhaustive over the finite
pixels and sum exactly to their number, which is the reported
`total_valid_pixels`, and the four reported 2-decimal-rounded percentages
sum to 100.0 within ±0.02. -/
theorem claim_C2_classification_partition :
    ∀ (g : Grid) (st : Stats), calculate_statistics g = .ok st →
      (∀ x ∈ finiteVals g,
        ((if isHealthy x then 1 else 0) + (if isModerate x then 1 else 0) +
          (if isStressed x then 1 else 0) + (if isBare x then 1 else 0) : ℕ)
          = 1) ∧
      healthyCount (finiteVals g) + moderateCount (finiteVals g) +
          stressedCount (finiteVals g) + bareCount (finiteVals g) =
        (finiteVals g).length ∧
      st.total_valid_pixels = (finiteVals g).length ∧
      |st.healthy_vegetation_percent + st.moderate_vegetation_percent +
          st.stressed_vegetation_percent + st.bare_land_percent - 100| ≤
        1 / 50 := by
  intro g st hok
  obtain ⟨hne, rfl⟩ := calculate_statistics_ok hok
  refine ⟨fun x _ => band_partition x, counts_partition _, rfl, ?_⟩
  have hsum := pct_sum_100 hne (counts_partition (finiteVals g))
  have b1 := round2_close ((healthyCount (finiteVals g) : ℚ) /
    ((finiteVals g).length : ℚ) * 100)
  have b2 := round2_close ((moderateCount (finiteVals g) : ℚ) /
    ((finiteVals g).length : ℚ) * 100)
  have b3 := round2_close ((stressedCount (finiteVals g) : ℚ) /
    ((finiteVals g).length : ℚ) * 100)
  have b4 := round2_close ((bareCount (finiteVals g) : ℚ) /
    ((finiteVals g).length : ℚ) * 100)
  rw [abs_le] at b1 b2 b3 b4
  dsimp only
  rw [abs_le]
  constructor <;> linarith [hsum, b1.1, b1.2, b2.1, b2.2, b3.1, b3.2,
    b4.1, b4.2]

/-- C2 counterexample: on `gC2` the four reported percentages are 3.12,
3.12, 3.12 and 90.62, summing to 99.98 — not within ±0.01 of 100. -/
theorem claim_C2_counterexample :
    (calculate_statistics gC2).map pctSum = .ok (4999 / 50) ∧
      ¬(|(4999 / 50 : ℚ) - 100| ≤ 1 / 100) := by
  constructor
  · with_unfolding_all rfl
  · rw [show (4999 / 50 : ℚ) - 100 = -(1 / 50) by norm_num, abs_neg,
      abs_of_nonneg (by norm_num : (0 : ℚ) ≤ 1 / 50)]
    norm_num

theorem claim_C2_witness :
    (∀ x ∈ finiteVals ⟨1, 1, [FVal.fin 0]⟩,
      ((if isHealthy x then 1 else 0) + (if isModerate x then 1 else 0) +
        (if isStressed x then 1 else 0) + (if isBare x then 1 else 0) : ℕ)
        = 1) ∧
    healthyCount (finiteVals ⟨1, 1, [FVal.fin 0]⟩) +
        moderateCount (finiteVals ⟨1, 1, [FVal.fin 0]⟩) +
        stressedCount (finiteVals ⟨1, 1, [FVal.fin 0]⟩) +
        bareCount (finiteVals ⟨1, 1, [FVal.fin 0]⟩) =
      (finiteVals ⟨1, 1, [FVal.fin 0]⟩).length ∧
    (⟨0, 0, 0, 100, 0, 0, 0, 0, 1⟩ : Stats).total_valid_pixels =
      (finiteVals ⟨1, 1, [FVal.fin 0]⟩).length ∧
    |(⟨0, 0, 0, 100, 0, 0, 0, 0, 1⟩ : Stats).healthy_vegetation_percent +
        (⟨0, 0, 0, 100, 0, 0, 0, 0, 1⟩ : Stats).moderate_vegetation_percent +
        (⟨0, 0, 0, 100, 0, 0, 0, 0, 1⟩ : Stats).stressed_vegetation_percent +
        (⟨0, 0, 0, 100, 0, 0, 0, 0, 1⟩ : Stats).bare_land_percent - 100| ≤
      1 / 50 :=
  claim_C2_classification_partition ⟨1, 1, [FVal.fin 0]⟩
    ⟨0, 0, 0, 100, 0, 0, 0, 0, 1⟩ (by with_unfolding_all rfl)

/-- Masking a list of zero cells gives a list of zero values. -/
theorem finiteVals_all_zero {l : List FVal} (h : ∀ v ∈ l, v = FVal.fin 0) :
    l.filterMap FVal.finVal = List.replicate l.length (0 : ℚ) := by
  induction l with
  | nil => rfl
  | cons a l ih =>
    have ha := h a (List.mem_cons_self _ _)
    subst ha
    simp [List.filterMap_cons, FVal.finVal, List.replicate_succ,
      ih fun v hv => h v (List.mem_cons_of_mem _ hv)]

/-- C8: for a grid in which every pixel has `red = 0` and `nir = 0`,
`compute_ndvi` produces an all-zero NDVI grid, and `calculate_statistics`
classifies every pixel as `bare_land` (100%) with no error raised, since
`0.0` is finite. -/
theorem claim_C8_all_degenerate :
    ∀ red nir g : Grid,
      (∀ v ∈ red.data, v = FVal.fin 0) → (∀ v ∈ nir.data, v = FVal.fin 0) →
      red.data.length = nir.data.length → red.data.length ≠ 0 →
      compute_ndvi red nir = .ok g →
      (∀ v ∈ g.data, v = FVal.fin 0) ∧
      ∃ st, calculate_statistics g = .ok st ∧
        st.bare_land_percent = 100 ∧
        st.healthy_vegetation_percent = 0 ∧
        st.moderate_vegetation_percent = 0 ∧
        st.stressed_vegetation_percent = 0 ∧
        st.total_valid_pixels = red.data.length := by
  intro red nir g hred hnir hlen hpos hok
  obtain ⟨-, -, -, hdata⟩ := compute_ndvi_ok hok
  have hzero : ∀ v ∈ g.data, v = FVal.fin 0 := by
    intro v hv
    rw [hdata] at hv
    obtain ⟨a, b, ha, hb, rfl⟩ := mem_zipWith hv
    rw [hred a ha, hnir b hb]
    with_unfolding_all rfl
  refine ⟨hzero, ?_⟩
  have hglen : g.data.length = red.data.length := by
    rw [hdata, List.length_zipWith, hlen, Nat.min_self]
  have hvalid : finiteVals g = List.replicate g.data.length 0 :=
    finiteVals_all_zero hzero
  have hvlen : (finiteVals g).length = red.data.length := by
    rw [hvalid, List.length_replicate, hglen]
  have hvne : (finiteVals g).length ≠ 0 := by rw [hvlen]; exact hpos
  have hvneQ : ((finiteVals g).length : ℚ) ≠ 0 := Nat.cast_ne_zero.mpr hvne
  have hbareC : bareCount (finiteVals g) = (finiteVals g).length := by
    unfold bareCount
    rw [List.countP_eq_length]
    intro a ha
    rw [hvalid] at ha
    rw [List.eq_of_mem_replicate ha]
    norm_num [isBare]
  have hhealthyC : healthyCount (finiteVals g) = 0 := by
    unfold healthyCount
    rw [List.countP_eq_zero]
    intro a ha
    rw [hvalid] at ha
    rw [List.eq_of_mem_replicate ha]
    norm_num [isHealthy]
  have hmoderateC : moderateCount (finiteVals g) = 0 := by
    unfold moderateCount
    rw [List.countP_eq_zero]
    intro a ha
    rw [hvalid] at ha
    rw [List.eq_of_mem_replicate ha]
    norm_num [isModerate]
  have hstressedC : stressedCount (finiteVals g) = 0 := by
    unfold stressedCount
    rw [List.countP_eq_zero]
    intro a ha
    rw [hvalid] at ha
    rw [List.eq_of_mem_replicate ha]
    norm_num [isStressed]
  cases hcase : calculate_statistics g with
  | error e =>
    exfalso
    simp only [calculate_statistics] at hcase
    split at hcase
    · exact hvne (by assumption)
    · cases hcase
  | ok st =>
    obtain ⟨-, rfl⟩ := calculate_statistics_ok hcase
    refine ⟨_, rfl, ?_, ?_, ?_, ?_, ?_⟩
    · dsimp only
      rw [hbareC, div_self hvneQ, one_mul]
      exact round2_hundred
    · dsimp only
      rw [hhealthyC]
      rw [Nat.cast_zero, zero_div, zero_mul]
      exact round2_zero
    · dsimp only
      rw [hmoderateC]
      rw [Nat.cast_zero, zero_div, zero_mul]
      exact round2_zero
    · dsimp only
      rw [hstressedC]
      rw [Nat.cast_zero, zero_div, zero_mul]
      exact round2_zero
    · exact hvlen

theorem claim_C8_witness :
    (∀ v ∈ (⟨2, 2, List.replicate 4 (FVal.fin 0)⟩ : Grid).data,
      v = FVal.fin 0) ∧
    ∃ st, calculate_statistics ⟨2, 2, List.replicate 4 (FVal.fin 0)⟩ =
        .ok st ∧
      st.bare_land_percent = 100 ∧
      st.healthy_vegetation_percent = 0 ∧
      st.moderate_vegetation_percent = 0 ∧
      st.stressed_vegetation_percent = 0 ∧
      st.total_valid_pixels =
        (⟨2, 2, List.replicate 4 (FVal.fin 0)⟩ : Grid).data.length :=
  claim_C8_all_degenerate ⟨2, 2, List.replicate 4 (FVal.fin 0)⟩
    ⟨2, 2, List.replicate 4 (FVal.fin 0)⟩
    ⟨2, 2, List.replicate 4 (FVal.fin 0)⟩ (by decide) (by decide) rfl
    (by decide) (by with_unfolding_all rfl)
